import Mathlib

/-!
Shallow embedding of the AI-performance-analyser metrics server
(`src/Naman/app.py`) and verification of its specification claims.

Numeric modelling conventions: Python floats are modelled as exact
rationals (`ℚ`).  Python `round(x, k)` and the `f"{x:.1f}"` format use
round-half-to-even, modelled by `roundHalfEven`.  OS counters are
natural numbers; counter differences are computed in `ℚ` so that a
counter reset (decrease) yields a negative rate, as in the source.
Fallible library calls are modelled as `Except Unit` / `Option` inputs
supplied by an oracle record, since the OS is an external collaborator.
-/

/-- Round-half-to-even of a rational to an integer: Python's `round` and
the rounding used by the `.1f` format. -/
def roundHalfEven (q : ℚ) : ℤ :=
  let f : ℤ := ⌊q⌋
  let r : ℚ := q - f
  if r < 1/2 then f
  else if 1/2 < r then f + 1
  else if f % 2 = 0 then f else f + 1

/-- Python `round(x, 1)` on the exact-rational model. -/
def round1 (q : ℚ) : ℚ := (roundHalfEven (q * 10) : ℚ) / 10

/-- Python `round(x, 2)` on the exact-rational model. -/
def round2 (q : ℚ) : ℚ := (roundHalfEven (q * 100) : ℚ) / 100

/-- Python `f"{x:.1f}"`: render with exactly one decimal digit.
(The negative-zero edge `-0.0` is rendered unsigned in this model.) -/
def fmt1 (q : ℚ) : String :=
  let t : ℤ := roundHalfEven (q * 10)
  (if t < 0 then "-" else "") ++ toString (t.natAbs / 10) ++ "." ++ toString (t.natAbs % 10)

/-- Loop body of `bytes_to_human` (src/Naman/app.py lines 83-88): for each
unit in the list, return `f"{n:.1f} {unit}"` once `n < step`, else divide
by `step = 1024.0`; when the unit list is exhausted, fall through to PB. -/
def bytesToHumanGo : ℚ → List String → String
  | n, [] => fmt1 n ++ " PB"
  | n, u :: us => if n < 1024 then fmt1 n ++ " " ++ u else bytesToHumanGo (n / 1024) us

/-- Embedding of `bytes_to_human` (src/Naman/app.py lines 81-88). -/
def bytes_to_human (n : ℚ) : String := bytesToHumanGo n ["B", "KB", "MB", "GB", "TB"]

/-- Modelled from the spec's words (for the refinement claim C5): select
the FIRST unit among B, KB, MB, GB, TB, PB at which the scaled value is
`< 1024` and format it with one decimal digit; `none` when no unit
qualifies. -/
def byteHumanSpec (n : ℚ) : Option String :=
  if n < 1024 then some (fmt1 n ++ " B")
  else if n / 1024 < 1024 then some (fmt1 (n / 1024) ++ " KB")
  else if n / 1024 ^ 2 < 1024 then some (fmt1 (n / 1024 ^ 2) ++ " MB")
  else if n / 1024 ^ 3 < 1024 then some (fmt1 (n / 1024 ^ 3) ++ " GB")
  else if n / 1024 ^ 4 < 1024 then some (fmt1 (n / 1024 ^ 4) ++ " TB")
  else if n / 1024 ^ 5 < 1024 then some (fmt1 (n / 1024 ^ 5) ++ " PB")
  else none

/-! ### Process ranker (src/Naman/app.py lines 61-78) -/

/-- One process as enumerated by `psutil.process_iter` with the requested
attrs; optional fields model attrs that `psutil` reports as `None`. -/
structure RawProc where
  pid : ℕ
  name : Option String
  cpu_percent : Option ℚ
  rss_bytes : Option ℕ
deriving DecidableEq, Repr

/-- One entry of the `processes_top` payload field. -/
structure ProcEntry where
  pid : ℕ
  name : String
  cpu_percent : ℚ
  memory_mb : ℚ
deriving DecidableEq, Repr

/-- Dict built in the loop body of `get_top_processes` (lines 66-72):
`name or ""`, `round(cpu_percent or 0, 1)`, and
`memory_info.rss / (1024*1024)` (or 0 when absent) rounded to 1 decimal. -/
def mkProcEntry (p : RawProc) : ProcEntry where
  pid := p.pid
  name := p.name.getD ""
  cpu_percent := round1 (p.cpu_percent.getD 0)
  memory_mb := round1 (match p.rss_bytes with | some r => (r : ℚ) / (1024 * 1024) | none => 0)

/-- Ordering used by `procs.sort(key=..., reverse=True)`: `a` may come
before `b` iff `a`'s cpu percent is at least `b`'s. -/
def procGE (a b : ProcEntry) : Prop := b.cpu_percent ≤ a.cpu_percent

instance : DecidableRel procGE := fun a b => inferInstanceAs (Decidable (b.cpu_percent ≤ a.cpu_percent))

instance : IsTotal ProcEntry procGE := ⟨fun a b => le_total b.cpu_percent a.cpu_percent⟩

instance : IsTrans ProcEntry procGE := ⟨fun _ _ _ hab hbc => le_trans hbc hab⟩

/-- Embedding of `get_top_processes` (lines 61-78).  The enumeration is an
oracle list whose `none` elements are processes whose attribute read raised
(skipped by the `except: continue`).  Python's `list.sort` with
`reverse=True` is a stable descending sort, modelled by `insertionSort`
with the non-strict relation `procGE` (which is stable). -/
def get_top_processes (n : ℕ) (procs : List (Option RawProc)) : List ProcEntry :=
  let entries := procs.filterMap (fun o => o.map mkProcEntry)
  (List.insertionSort procGE entries).take n

/-! ### GPU resolver (src/Naman/app.py lines 24-58) -/

/-- Raw fields of a `GPUtil` device object.  A device whose attribute
reads raise is modelled as `none` in the enumeration list. -/
structure GpuRaw where
  name : String
  load : ℚ
  memoryUsed : ℚ
  memoryTotal : ℚ
  temperature : Option ℚ
deriving DecidableEq, Repr

/-- The GPU record returned by `safe_gpu_info`. -/
structure GpuInfo where
  name : String
  load_percent : ℚ
  memory_used_mb : ℚ
  memory_total_mb : ℚ
  temperature_c : Option ℚ
deriving DecidableEq, Repr

/-- Record built from the first `GPUtil` device (lines 30-36). -/
def mkGpuInfo (g : GpuRaw) : GpuInfo where
  name := g.name
  load_percent := round1 (g.load * 100)
  memory_used_mb := round1 g.memoryUsed
  memory_total_mb := round1 g.memoryTotal
  temperature_c := g.temperature

/-- Result of the `subprocess.run` probe: exit code and standard output.
A raised exception (command missing, timeout) is the `Except.error` case
of the oracle input. -/
structure SmiRes where
  returncode : ℤ
  stdout : String
deriving DecidableEq, Repr

/-- Numeric value of a digit string (most significant first). -/
def digitsVal (cs : List Char) : ℕ := cs.foldl (fun acc c => 10 * acc + (c.toNat - 48)) 0

/-- Python `float()` on plain decimal literals: optional sign, integer
digits, optional fraction; anything else fails (raises, modelled `none`). -/
def pyFloat? (s : String) : Option ℚ :=
  let cs := s.data
  let sgn : ℚ := match cs with | '-' :: _ => -1 | _ => 1
  let cs2 : List Char := match cs with
    | '-' :: r => r
    | '+' :: r => r
    | _ => cs
  let ip := cs2.takeWhile Char.isDigit
  let fp := cs2.dropWhile Char.isDigit
  match fp with
  | [] => if ip.isEmpty then none else some (sgn * digitsVal ip)
  | '.' :: frac =>
    if frac.all Char.isDigit && !(ip.isEmpty && frac.isEmpty) then
      some (sgn * ((digitsVal ip : ℚ) + (digitsVal frac : ℚ) / 10 ^ frac.length))
    else none
  | _ => none

/-- The `nvidia-smi` fallback path (lines 41-56): require exit code 0 and
non-empty output, split the output on commas stripping each part, require
at least 5 fields (fewer is treated as no data), parse the four numeric
fields (a parse failure raises and is caught, yielding `none`). -/
def gpuFallback (smi : Except Unit SmiRes) : Option GpuInfo :=
  match smi with
  | .error _ => none
  | .ok p =>
    if p.returncode = 0 ∧ p.stdout.trim ≠ "" then
      match (p.stdout.splitOn ",").map String.trim with
      | p0 :: p1 :: p2 :: p3 :: p4 :: _ =>
        match pyFloat? p1, pyFloat? p2, pyFloat? p3, pyFloat? p4 with
        | some l, some mu, some mt, some tc =>
          some { name := p0, load_percent := l, memory_used_mb := mu,
                 memory_total_mb := mt, temperature_c := some tc }
        | _, _, _, _ => none
      | _ => none
    else none

/-- Embedding of `safe_gpu_info` (lines 24-58).  `primary` is the outcome
of `GPUtil.getGPUs()`: `Except.error` when the call raises, otherwise the
device list; a `none` device is one whose field access raises while the
return dict is built (caught, falling through to the fallback). -/
def safe_gpu_info (primary : Except Unit (List (Option GpuRaw))) (smi : Except Unit SmiRes) : Option GpuInfo :=
  match primary with
  | .ok (some g :: _) => some (mkGpuInfo g)
  | .ok (none :: _) => gpuFallback smi
  | .ok [] => gpuFallback smi
  | .error _ => gpuFallback smi

/-! ### Snapshot composer (src/Naman/app.py lines 96-239) -/

/-- Global `psutil.net_io_counters()` result; only the fields the rate
computation reads are modelled. -/
structure NetCounters where
  bytes_sent : ℕ
  bytes_recv : ℕ
deriving DecidableEq, Repr

/-- Global `psutil.disk_io_counters()` result; only the fields read. -/
structure DiskCounters where
  read_bytes : ℕ
  write_bytes : ℕ
deriving DecidableEq, Repr

/-- Per-NIC `snetio` counters (the four fields the code copies, plus two
extra ones standing for the rest of the tuple). -/
structure NicCounters where
  bytes_sent : ℕ
  bytes_recv : ℕ
  packets_sent : ℕ
  packets_recv : ℕ
  errin : ℕ
  errout : ℕ
deriving DecidableEq, Repr

/-- The dict stored per interface name (lines 152-157). -/
structure NicEntry where
  bytes_sent : ℕ
  bytes_recv : ℕ
  packets_sent : ℕ
  packets_recv : ℕ
deriving DecidableEq, Repr

def mkNicEntry (v : NicCounters) : NicEntry where
  bytes_sent := v.bytes_sent
  bytes_recv := v.bytes_recv
  packets_sent := v.packets_sent
  packets_recv := v.packets_recv

/-- `psutil.virtual_memory()` fields used. -/
structure MemInfo where
  total : ℕ
  used : ℕ
  available : ℕ
  percent : ℚ
deriving DecidableEq, Repr

/-- `psutil.disk_usage('/')` fields used. -/
structure DiskUsage where
  total : ℕ
  used : ℕ
  free : ℕ
  percent : ℚ
deriving DecidableEq, Repr

/-- `psutil.sensors_battery()` result when a battery is present. -/
structure BatteryRaw where
  percent : ℚ
  power_plugged : Bool
deriving DecidableEq, Repr

/-- The battery sub-record of the payload (lines 172-175). -/
structure BatteryInfo where
  percent : ℚ
  plugged : Bool
deriving DecidableEq, Repr

/-- Raw host-identity reads (`platform.*` and `psutil.boot_time()`),
treated as infallible static queries. -/
structure SysRaw where
  hostname : String
  os : String
  os_version : String
  platform : String
  machine : String
  processor : String
  python_version : String
  boot_time : ℚ
deriving DecidableEq, Repr

/-- The `system` sub-record of the payload (lines 182-192). -/
structure SysInfo where
  hostname : String
  os : String
  os_version : String
  platform : String
  machine : String
  processor : String
  python_version : String
  boot_time : ℚ
  uptime_seconds : ℤ
deriving DecidableEq, Repr

/-- Python `int()` truncation toward zero on the exact-rational model. -/
def pyInt (q : ℚ) : ℤ := if 0 ≤ q then ⌊q⌋ else ⌈q⌉

/-- The module-level `_prev` dict (lines 17-21): previous net counters,
previous disk counters and previous timestamp, each possibly `None`. -/
structure RateState where
  net : Option NetCounters
  disk : Option DiskCounters
  ts : Option ℚ
deriving DecidableEq, Repr

/-- Oracle record holding one call's reads of the external collaborators
(OS counters, sensors, clock).  Reads whose failure the code does not
catch — the core CPU / memory / disk gauges and the two cumulative
counter reads — are `Except Unit`; a raised exception is `Except.error`.
The per-NIC, GPU, process and battery reads are also fallible but the
code catches their failures locally. -/
structure StatsInput where
  now : ℚ
  cpu_percent : Except Unit ℚ
  per_core : Except Unit (List ℚ)
  cpu_freq : Except Unit (Option ℚ)
  vm : Except Unit MemInfo
  disk_usage : Except Unit DiskUsage
  net_counters : Except Unit NetCounters
  disk_io : Except Unit DiskCounters
  pernic : Except Unit (List (String × NicCounters))
  gpu_primary : Except Unit (List (Option GpuRaw))
  smi : Except Unit SmiRes
  procs : List (Option RawProc)
  battery : Except Unit (Option BatteryRaw)
  sysinfo : SysRaw
  now2 : ℚ
  logical_cores : Option ℕ
  physical_cores : Option ℕ
deriving Repr

/-- The composed JSON payload (lines 195-237), with the nested dicts
flattened into prefixed field names. -/
structure Payload where
  timestamp : ℚ
  cpu_percent : ℚ
  per_core : List ℚ
  frequency_ghz : Option ℚ
  logical_cores : Option ℕ
  physical_cores : Option ℕ
  mem_total_bytes : ℕ
  mem_used_bytes : ℕ
  mem_available_bytes : ℕ
  mem_percent : ℚ
  mem_human_total : String
  mem_human_used : String
  mem_human_available : String
  disk_total_bytes : ℕ
  disk_used_bytes : ℕ
  disk_free_bytes : ℕ
  disk_percent : ℚ
  read_bps : Option ℚ
  write_bps : Option ℚ
  disk_human_total : String
  disk_human_used : String
  disk_human_free : String
  interfaces : List (String × NicEntry)
  upload_bps : Option ℚ
  download_bps : Option ℚ
  gpu : Option GpuInfo
  processes_top : List ProcEntry
  battery : Option BatteryInfo
  system : SysInfo
deriving DecidableEq, Repr

/-- Rate computation and payload composition (lines 99-145 and 147-237)
for one call whose seven unguarded reads returned
`cpu, perCore, freq, vm, du, nc, dc`.  Python truthiness of the stored
floats is translated explicitly: `prev_ts` and `delta_t` are falsy at
`0.0` (so `delta_t = now - prev_ts if prev_ts else None` yields `none`
for a stored timestamp 0), while the psutil counter namedtuples are
always truthy when present. -/
def mkPayload (inp : StatsInput) (st : RateState) (cpu : ℚ) (perCore : List ℚ)
    (freq : Option ℚ) (vm : MemInfo) (du : DiskUsage) (nc : NetCounters) (dc : DiskCounters) :
    Payload :=
    let now := inp.now
    let delta_t : Option ℚ := match st.ts with
      | some t => if t = 0 then none else some (now - t)
      | none => none
    let netRates : Option ℚ × Option ℚ :=
      match st.net, st.ts, delta_t with
      | some p, some t, some d =>
        if t ≠ 0 ∧ d ≠ 0 ∧ 0 < d then
          (some (((nc.bytes_sent : ℚ) - (p.bytes_sent : ℚ)) / d),
           some (((nc.bytes_recv : ℚ) - (p.bytes_recv : ℚ)) / d))
        else (none, none)
      | _, _, _ => (none, none)
    let diskRates : Option ℚ × Option ℚ :=
      match st.disk, st.ts, delta_t with
      | some p, some t, some d =>
        if t ≠ 0 ∧ d ≠ 0 ∧ 0 < d then
          (some (((dc.read_bytes : ℚ) - (p.read_bytes : ℚ)) / d),
           some (((dc.write_bytes : ℚ) - (p.write_bytes : ℚ)) / d))
        else (none, none)
      | _, _, _ => (none, none)
    let net_if : List (String × NicEntry) :=
      match inp.pernic with
      | .ok l => l.map (fun kv => (kv.1, mkNicEntry kv.2))
      | .error _ => []
    let batteryInfo : Option BatteryInfo :=
      match inp.battery with
      | .ok (some b) => some { percent := round1 b.percent, plugged := b.power_plugged }
      | .ok none => none
      | .error _ => none
    { timestamp := now
      cpu_percent := round1 cpu
      per_core := perCore.map round1
      frequency_ghz := freq.map (fun f => round2 (f / 1000))
      logical_cores := inp.logical_cores
      physical_cores := inp.physical_cores
      mem_total_bytes := vm.total
      mem_used_bytes := vm.used
      mem_available_bytes := vm.available
      mem_percent := vm.percent
      mem_human_total := bytes_to_human vm.total
      mem_human_used := bytes_to_human vm.used
      mem_human_available := bytes_to_human vm.available
      disk_total_bytes := du.total
      disk_used_bytes := du.used
      disk_free_bytes := du.free
      disk_percent := du.percent
      read_bps := diskRates.1
      write_bps := diskRates.2
      disk_human_total := bytes_to_human du.total
      disk_human_used := bytes_to_human du.used
      disk_human_free := bytes_to_human du.free
      interfaces := net_if
      upload_bps := netRates.1
      download_bps := netRates.2
      gpu := safe_gpu_info inp.gpu_primary inp.smi
      processes_top := get_top_processes 5 inp.procs
      battery := batteryInfo
      system := {
        hostname := inp.sysinfo.hostname
        os := inp.sysinfo.os
        os_version := inp.sysinfo.os_version
        platform := inp.sysinfo.platform
        machine := inp.sysinfo.machine
        processor := inp.sysinfo.processor
        python_version := inp.sysinfo.python_version
        boot_time := inp.sysinfo.boot_time
        uptime_seconds := pyInt (inp.now2 - inp.sysinfo.boot_time) } }

/-- Embedding of the `/api/stats` handler body (lines 96-239), the code
inside `with lock:`.  The seven reads the code does not guard (CPU,
per-core, frequency, memory, disk usage and the two cumulative counter
reads, lines 101-122) all happen before the `_prev` overwrite (lines
143-145), so a raise in any of them aborts the request with the shared
state unchanged; otherwise the stored sample is unconditionally replaced
by the freshly read counters and timestamp. -/
def stats (inp : StatsInput) (st : RateState) : Except Unit Payload × RateState :=
  match inp.cpu_percent, inp.per_core, inp.cpu_freq, inp.vm, inp.disk_usage, inp.net_counters, inp.disk_io with
  | .ok cpu, .ok perCore, .ok freq, .ok vm, .ok du, .ok nc, .ok dc =>
    (Except.ok (mkPayload inp st cpu perCore freq vm du nc dc),
     { net := some nc, disk := some dc, ts := some inp.now })
  | _, _, _, _, _, _, _ => (Except.error (), st)

/-- True when none of the seven unguarded reads raises. -/
def readsOk (inp : StatsInput) : Bool :=
  inp.cpu_percent.isOk && inp.per_core.isOk && inp.cpu_freq.isOk && inp.vm.isOk &&
  inp.disk_usage.isOk && inp.net_counters.isOk && inp.disk_io.isOk

/-- State trace of a sequence of calls: the stored `_prev` after each one. -/
def runStats : RateState → List StatsInput → List RateState
  | _, [] => []
  | st, i :: is =>
    let st2 := (stats i st).2
    st2 :: runStats st2 is

/-! ### Lock discipline of the handler (src/Naman/app.py lines 14, 98, 124-145)

The handler body runs inside `with lock:` for a single module-level
`threading.Lock`.  The accesses to the shared `_prev` dict are the read
(lines 124-126) and the overwrite (lines 143-145), both inside that one
region.  Concurrent calls are modelled as interleaved traces of events:
a thread acquires the lock, reads `_prev`, writes `_prev`, releases.
A trace is valid when every acquire happens on a free lock and every
read / write / release is performed by the current holder — exactly the
guarantee `threading.Lock` gives. -/

inductive LockAct
  | acquire
  | read
  | write
  | release
deriving DecidableEq, Repr

/-- One event of one thread (`tid`) in an interleaved trace. -/
structure LockEv where
  tid : ℕ
  act : LockAct
deriving DecidableEq, Repr

/-- Small-step semantics of the single `threading.Lock`: the state is the
current holder; `none` as a result marks an impossible step (blocked
acquire is simply never scheduled; a read / write / release by a
non-holder cannot happen in the source since those statements are inside
the holder's `with lock:` block). -/
def lockStep : Option ℕ → LockEv → Option (Option ℕ)
  | none, ⟨t, .acquire⟩ => some (some t)
  | none, _ => none
  | some _, ⟨_, .acquire⟩ => none
  | some t, ⟨u, .read⟩ => if u = t then some (some t) else none
  | some t, ⟨u, .write⟩ => if u = t then some (some t) else none
  | some t, ⟨u, .release⟩ => if u = t then some none else none

/-- Run a trace from a lock state; `none` when some step is impossible. -/
def runLock : Option ℕ → List LockEv → Option (Option ℕ)
  | l, [] => some l
  | l, e :: es =>
    match lockStep l e with
    | some l2 => runLock l2 es
    | none => none

/-- A realizable interleaving of the handler's critical sections. -/
def validTrace (es : List LockEv) : Bool := (runLock none es).isSome

/-- Boolean key test used to state sort stability: does this entry have
cpu percent `c`? -/
def cpuEq (c : ℚ) (e : ProcEntry) : Bool := e.cpu_percent = c

/-! ### Concrete fixtures used by witnesses -/

/-- All-reads-succeed oracle input: clock 3, net counters
`{sent 3000, recv 2500}`, disk counters `{read 500, write 600}`. -/
def inpW : StatsInput where
  now := 3
  cpu_percent := Except.ok 10
  per_core := Except.ok [10]
  cpu_freq := Except.ok (some 2400)
  vm := Except.ok ⟨4096, 2048, 2048, 50⟩
  disk_usage := Except.ok ⟨100, 50, 50, 50⟩
  net_counters := Except.ok ⟨3000, 2500⟩
  disk_io := Except.ok ⟨500, 600⟩
  pernic := Except.ok [("eth0", ⟨1, 2, 3, 4, 0, 0⟩)]
  gpu_primary := Except.error ()
  smi := Except.error ()
  procs := []
  battery := Except.ok none
  sysinfo := ⟨"host", "linux", "v", "plat", "x86", "cpu", "3.10", 1⟩
  now2 := 3
  logical_cores := some 4
  physical_cores := some 2

/-- Stored sample: net `{sent 1000, recv 2000}`, disk
`{read 100, write 100}` at timestamp 1. -/
def stW : RateState := ⟨some ⟨1000, 2000⟩, some ⟨100, 100⟩, some 1⟩

/-- Stored sample whose timestamp is the Python-falsy float 0.0. -/
def stZeroTs : RateState := ⟨some ⟨1000, 2000⟩, some ⟨100, 100⟩, some 0⟩

/-- Stored sample at timestamp 10 (later than `inpPast`'s clock). -/
def stTen : RateState := ⟨some ⟨1000, 2000⟩, some ⟨100, 100⟩, some 10⟩

/-- The all-ok input observed at the earlier clock value 5. -/
def inpPast : StatsInput := { inpW with now := 5 }

/-- The all-ok input observed at clock 4. -/
def inpW4 : StatsInput := { inpW with now := 4 }

/-- The all-ok input with a raising `psutil.virtual_memory()`. -/
def inpBad : StatsInput := { inpW with vm := Except.error () }

/-- The all-ok input with a raising per-NIC enumeration. -/
def inpNicErr : StatsInput := { inpW with pernic := Except.error () }


theorem runLock_append (xs : List LockEv) : ∀ (l : Option ℕ) (ys : List LockEv),
    runLock l (xs ++ ys) = (runLock l xs).bind (fun l2 => runLock l2 ys) := by
  induction xs with
  | nil => intro l ys; rfl
  | cons e es ih =>
    intro l ys
    simp only [List.cons_append, runLock]
    cases lockStep l e with
    | none => rfl
    | some l2 => exact ih l2 ys

/-- While a thread `t` holds the lock and does not release it, every event
of a valid continuation belongs to `t`, and `t` still holds the lock. -/
theorem runLock_held (t : ℕ) : ∀ (m : List LockEv),
    (runLock (some t) m).isSome = true → LockEv.mk t LockAct.release ∉ m →
    (∀ e ∈ m, e.tid = t) ∧ runLock (some t) m = some (some t) := by
  intro m
  induction m with
  | nil => intro _ _; exact ⟨by simp, rfl⟩
  | cons e es ih =>
    intro hrun hnr
    have hstep : ∃ l2, lockStep (some t) e = some l2 ∧ (runLock l2 es).isSome = true := by
      simp only [runLock] at hrun
      cases h : lockStep (some t) e with
      | none => rw [h] at hrun; simp at hrun
      | some l2 => rw [h] at hrun; exact ⟨l2, rfl, hrun⟩
    obtain ⟨l2, hl2, hrest⟩ := hstep
    obtain ⟨u, a⟩ := e
    have hnr2 : LockEv.mk t LockAct.release ∉ es := by
      intro hmem; exact hnr (List.mem_cons_of_mem _ hmem)
    cases a with
    | acquire => simp [lockStep] at hl2
    | read =>
      have hu : u = t := by
        by_contra hne
        simp [lockStep, hne] at hl2
      subst hu
      simp [lockStep] at hl2
      subst hl2
      obtain ⟨h1, h2⟩ := ih hrest hnr2
      refine ⟨?_, by simpa [runLock, lockStep] using h2⟩
      intro e he
      rcases List.mem_cons.mp he with h | h
      · rw [h]
      · exact h1 e h
    | write =>
      have hu : u = t := by
        by_contra hne
        simp [lockStep, hne] at hl2
      subst hu
      simp [lockStep] at hl2
      subst hl2
      obtain ⟨h1, h2⟩ := ih hrest hnr2
      refine ⟨?_, by simpa [runLock, lockStep] using h2⟩
      intro e he
      rcases List.mem_cons.mp he with h | h
      · rw [h]
      · exact h1 e h
    | release =>
      have hu : u = t := by
        by_contra hne
        simp [lockStep, hne] at hl2
      subst hu
      exact absurd (List.mem_cons_self _ _) hnr

/-! ### Evaluation checks of the formatter -/

example : bytes_to_human 0 = "0.0 B" := by
  norm_num [bytes_to_human, bytesToHumanGo, fmt1, roundHalfEven]
  decide

example : bytes_to_human 1536 = "1.5 KB" := by
  norm_num [bytes_to_human, bytesToHumanGo, fmt1, roundHalfEven]
  decide

example : bytes_to_human 1073741824 = "1.0 GB" := by
  norm_num [bytes_to_human, bytesToHumanGo, fmt1, roundHalfEven]
  decide

example : bytes_to_human (1024 ^ 6) = "1024.0 PB" := by
  norm_num [bytes_to_human, bytesToHumanGo, fmt1, roundHalfEven]
  decide

example : bytes_to_human (-5) = "-5.0 B" := by
  norm_num [bytes_to_human, bytesToHumanGo, fmt1, roundHalfEven]
  decide

example : byteHumanSpec (1024 ^ 6) = none := by
  norm_num [byteHumanSpec]

/-! ### Claims about the byte formatter (C5, C10) -/

theorem bth_B {n : ℚ} (h : n < 1024) : bytes_to_human n = fmt1 n ++ " B" := by
  simp [bytes_to_human, bytesToHumanGo, h, String.append_assoc,
    (by decide : (" " ++ "B" : String) = " B")]

theorem bth_KB {n : ℚ} (h0 : ¬ n < 1024) (h1 : n / 1024 < 1024) :
    bytes_to_human n = fmt1 (n / 1024) ++ " KB" := by
  simp [bytes_to_human, bytesToHumanGo, h0, h1, String.append_assoc,
    (by decide : (" " ++ "KB" : String) = " KB")]

theorem bth_MB {n : ℚ} (h0 : ¬ n < 1024) (h1 : ¬ n / 1024 < 1024)
    (h2 : n / 1024 / 1024 < 1024) :
    bytes_to_human n = fmt1 (n / 1024 / 1024) ++ " MB" := by
  simp [bytes_to_human, bytesToHumanGo, h0, h1, h2, String.append_assoc,
    (by decide : (" " ++ "MB" : String) = " MB")]

theorem bth_GB {n : ℚ} (h0 : ¬ n < 1024) (h1 : ¬ n / 1024 < 1024)
    (h2 : ¬ n / 1024 / 1024 < 1024) (h3 : n / 1024 / 1024 / 1024 < 1024) :
    bytes_to_human n = fmt1 (n / 1024 / 1024 / 1024) ++ " GB" := by
  simp [bytes_to_human, bytesToHumanGo, h0, h1, h2, h3, String.append_assoc,
    (by decide : (" " ++ "GB" : String) = " GB")]

theorem bth_TB {n : ℚ} (h0 : ¬ n < 1024) (h1 : ¬ n / 1024 < 1024)
    (h2 : ¬ n / 1024 / 1024 < 1024) (h3 : ¬ n / 1024 / 1024 / 1024 < 1024)
    (h4 : n / 1024 / 1024 / 1024 / 1024 < 1024) :
    bytes_to_human n = fmt1 (n / 1024 / 1024 / 1024 / 1024) ++ " TB" := by
  simp [bytes_to_human, bytesToHumanGo, h0, h1, h2, h3, h4, String.append_assoc,
    (by decide : (" " ++ "TB" : String) = " TB")]

theorem bth_PB {n : ℚ} (h0 : ¬ n < 1024) (h1 : ¬ n / 1024 < 1024)
    (h2 : ¬ n / 1024 / 1024 < 1024) (h3 : ¬ n / 1024 / 1024 / 1024 < 1024)
    (h4 : ¬ n / 1024 / 1024 / 1024 / 1024 < 1024) :
    bytes_to_human n = fmt1 (n / 1024 / 1024 / 1024 / 1024 / 1024) ++ " PB" := by
  simp [bytes_to_human, bytesToHumanGo, h0, h1, h2, h3, h4]

/-- C10: every input below 1024 (negative values included) is rendered
with unit B, and every input at least `1024^5` is rendered as
`n / 1024^5` with one decimal digit and unit PB, even when that value is
itself at least 1024 (PB is an unconditional fall-through). -/
theorem bytes_to_human_low_high (n : ℚ) :
    (n < 1024 → bytes_to_human n = fmt1 n ++ " B") ∧
    (1024 ^ 5 ≤ n → bytes_to_human n = fmt1 (n / 1024 ^ 5) ++ " PB") := by
  have hq : (0 : ℚ) < 1024 := by norm_num
  constructor
  · exact fun h => bth_B h
  · intro h
    norm_num at h
    have c0 : ¬ n < 1024 := by linarith
    have c1 : ¬ n / 1024 < 1024 := by
      rw [not_lt, le_div_iff₀ hq]; norm_num; linarith
    have c2 : ¬ n / 1024 / 1024 < 1024 := by
      rw [not_lt, le_div_iff₀ hq, le_div_iff₀ hq]; norm_num; linarith
    have c3 : ¬ n / 1024 / 1024 / 1024 < 1024 := by
      rw [not_lt, le_div_iff₀ hq, le_div_iff₀ hq, le_div_iff₀ hq]; norm_num; linarith
    have c4 : ¬ n / 1024 / 1024 / 1024 / 1024 < 1024 := by
      rw [not_lt, le_div_iff₀ hq, le_div_iff₀ hq, le_div_iff₀ hq, le_div_iff₀ hq]
      norm_num; linarith
    rw [bth_PB c0 c1 c2 c3 c4]
    have e : n / 1024 / 1024 / 1024 / 1024 / 1024 = n / 1024 ^ 5 := by ring
    rw [e]

/-- Witness for `bytes_to_human_low_high` at -5 and at `1024^6`. -/
theorem bytes_to_human_low_high_witness :
    bytes_to_human (-5) = fmt1 (-5) ++ " B" ∧
    bytes_to_human (1024 ^ 6) = fmt1 (1024 ^ 6 / 1024 ^ 5) ++ " PB" := by
  constructor
  · exact (bytes_to_human_low_high (-5)).1 (by norm_num)
  · exact (bytes_to_human_low_high (1024 ^ 6)).2 (by norm_num)

/-- C5 (amended): for every non-negative byte count BELOW `1024^6`,
`bytes_to_human` returns exactly the spec rendering — one decimal digit,
a space, and the first unit among B, KB, MB, GB, TB, PB at which the
scaled value is below 1024 — and the three cited examples hold.  (For
`n ≥ 1024^6` no unit qualifies; see the PB fall-through theorem.) -/
theorem bytes_to_human_first_unit (n : ℚ) (hnn : 0 ≤ n) (h6 : n < 1024 ^ 6) :
    byteHumanSpec n = some (bytes_to_human n) ∧
    bytes_to_human 0 = "0.0 B" ∧ bytes_to_human 1536 = "1.5 KB" ∧
    bytes_to_human 1073741824 = "1.0 GB" := by
  have hq : (0 : ℚ) < 1024 := by norm_num
  have hp2 : (0 : ℚ) < 1024 ^ 2 := by norm_num
  have hp3 : (0 : ℚ) < 1024 ^ 3 := by norm_num
  have hp4 : (0 : ℚ) < 1024 ^ 4 := by norm_num
  have hp5 : (0 : ℚ) < 1024 ^ 5 := by norm_num
  refine ⟨?_, ?_, ?_, ?_⟩
  · norm_num at h6
    rcases lt_or_le n 1024 with hA | hA
    · rw [bth_B hA]
      simp [byteHumanSpec, hA]
    rcases lt_or_le n 1048576 with hB | hB
    · have c0 : ¬ n < 1024 := not_lt.mpr hA
      have c1 : n / 1024 < 1024 := by rw [div_lt_iff₀ hq]; norm_num; linarith
      rw [bth_KB c0 c1]
      simp [byteHumanSpec, c0, c1]
    rcases lt_or_le n 1073741824 with hC | hC
    · have c0 : ¬ n < 1024 := not_lt.mpr hA
      have c1 : ¬ n / 1024 < 1024 := by rw [not_lt, le_div_iff₀ hq]; norm_num; linarith
      have c2 : n / 1024 / 1024 < 1024 := by
        rw [div_lt_iff₀ hq, div_lt_iff₀ hq]; norm_num; linarith
      have s2 : n / 1024 ^ 2 < 1024 := by rw [div_lt_iff₀ hp2]; norm_num; linarith
      have e : n / 1024 / 1024 = n / 1024 ^ 2 := by ring
      rw [bth_MB c0 c1 c2, e]
      simp [byteHumanSpec, c0, c1, s2]
    rcases lt_or_le n 1099511627776 with hD | hD
    · have c0 : ¬ n < 1024 := not_lt.mpr hA
      have c1 : ¬ n / 1024 < 1024 := by rw [not_lt, le_div_iff₀ hq]; norm_num; linarith
      have c2 : ¬ n / 1024 / 1024 < 1024 := by
        rw [not_lt, le_div_iff₀ hq, le_div_iff₀ hq]; norm_num; linarith
      have c3 : n / 1024 / 1024 / 1024 < 1024 := by
        rw [div_lt_iff₀ hq, div_lt_iff₀ hq, div_lt_iff₀ hq]; norm_num; linarith
      have s2 : ¬ n / 1024 ^ 2 < 1024 := by rw [not_lt, le_div_iff₀ hp2]; norm_num; linarith
      have s3 : n / 1024 ^ 3 < 1024 := by rw [div_lt_iff₀ hp3]; norm_num; linarith
      have e : n / 1024 / 1024 / 1024 = n / 1024 ^ 3 := by ring
      rw [bth_GB c0 c1 c2 c3, e]
      simp [byteHumanSpec, c0, c1, s2, s3]
    rcases lt_or_le n 1125899906842624 with hE | hE
    · have c0 : ¬ n < 1024 := not_lt.mpr hA
      have c1 : ¬ n / 1024 < 1024 := by rw [not_lt, le_div_iff₀ hq]; norm_num; linarith
      have c2 : ¬ n / 1024 / 1024 < 1024 := by
        rw [not_lt, le_div_iff₀ hq, le_div_iff₀ hq]; norm_num; linarith
      have c3 : ¬ n / 1024 / 1024 / 1024 < 1024 := by
        rw [not_lt, le_div_iff₀ hq, le_div_iff₀ hq, le_div_iff₀ hq]; norm_num; linarith
      have c4 : n / 1024 / 1024 / 1024 / 1024 < 1024 := by
        rw [div_lt_iff₀ hq, div_lt_iff₀ hq, div_lt_iff₀ hq, div_lt_iff₀ hq]
        norm_num; linarith
      have s2 : ¬ n / 1024 ^ 2 < 1024 := by rw [not_lt, le_div_iff₀ hp2]; norm_num; linarith
      have s3 : ¬ n / 1024 ^ 3 < 1024 := by rw [not_lt, le_div_iff₀ hp3]; norm_num; linarith
      have s4 : n / 1024 ^ 4 < 1024 := by rw [div_lt_iff₀ hp4]; norm_num; linarith
      have e : n / 1024 / 1024 / 1024 / 1024 = n / 1024 ^ 4 := by ring
      rw [bth_TB c0 c1 c2 c3 c4, e]
      simp [byteHumanSpec, c0, c1, s2, s3, s4]
    · have c0 : ¬ n < 1024 := not_lt.mpr hA
      have c1 : ¬ n / 1024 < 1024 := by rw [not_lt, le_div_iff₀ hq]; norm_num; linarith
      have c2 : ¬ n / 1024 / 1024 < 1024 := by
        rw [not_lt, le_div_iff₀ hq, le_div_iff₀ hq]; norm_num; linarith
      have c3 : ¬ n / 1024 / 1024 / 1024 < 1024 := by
        rw [not_lt, le_div_iff₀ hq, le_div_iff₀ hq, le_div_iff₀ hq]; norm_num; linarith
      have c4 : ¬ n / 1024 / 1024 / 1024 / 1024 < 1024 := by
        rw [not_lt, le_div_iff₀ hq, le_div_iff₀ hq, le_div_iff₀ hq, le_div_iff₀ hq]
        norm_num; linarith
      have s2 : ¬ n / 1024 ^ 2 < 1024 := by rw [not_lt, le_div_iff₀ hp2]; norm_num; linarith
      have s3 : ¬ n / 1024 ^ 3 < 1024 := by rw [not_lt, le_div_iff₀ hp3]; norm_num; linarith
      have s4 : ¬ n / 1024 ^ 4 < 1024 := by rw [not_lt, le_div_iff₀ hp4]; norm_num; linarith
      have s5 : n / 1024 ^ 5 < 1024 := by rw [div_lt_iff₀ hp5]; norm_num; linarith
      have e : n / 1024 / 1024 / 1024 / 1024 / 1024 = n / 1024 ^ 5 := by ring
      rw [bth_PB c0 c1 c2 c3 c4, e]
      simp [byteHumanSpec, c0, c1, s2, s3, s4, s5]
  · norm_num [bytes_to_human, bytesToHumanGo, fmt1, roundHalfEven]
    decide
  · norm_num [bytes_to_human, bytesToHumanGo, fmt1, roundHalfEven]
    decide
  · norm_num [bytes_to_human, bytesToHumanGo, fmt1, roundHalfEven]
    decide

/-- Witness for `bytes_to_human_first_unit` at 1536. -/
theorem bytes_to_human_first_unit_witness :
    byteHumanSpec 1536 = some (bytes_to_human 1536) ∧ bytes_to_human 1536 = "1.5 KB" := by
  have h := bytes_to_human_first_unit 1536 (by norm_num) (by norm_num)
  exact ⟨h.1, h.2.2.1⟩

/-- C5 counterexample: at the non-negative input `1024^6` there is NO
unit at which the remaining value is below 1024 — the claimed selection
rule is unsatisfiable — while the code still returns a PB string whose
numeric part is 1024.0, not below 1024. -/
theorem bytes_to_human_no_first_unit :
    byteHumanSpec (1024 ^ 6) = none ∧ bytes_to_human (1024 ^ 6) = "1024.0 PB" := by
  constructor
  · norm_num [byteHumanSpec]
  · norm_num [bytes_to_human, bytesToHumanGo, fmt1, roundHalfEven]
    decide

/-! ### Claims about the process ranker (C6) -/

/-- Inserting `x` keeps the entries with any fixed cpu key in order, with
`x` in front of the equal-key entries it is inserted among (stability of
one `orderedInsert` step). -/
theorem filter_orderedInsert_cpu (c : ℚ) (x : ProcEntry) (l : List ProcEntry) :
    (List.orderedInsert procGE x l).filter (cpuEq c) =
      if cpuEq c x then x :: l.filter (cpuEq c) else l.filter (cpuEq c) := by
  induction l with
  | nil =>
    simp only [List.orderedInsert, List.filter_cons, List.filter_nil]
  | cons y ys ih =>
    by_cases hles : procGE x y
    · simp only [List.orderedInsert, if_pos hles]
      rw [List.filter_cons]
    · simp only [List.orderedInsert, if_neg hles]
      rw [List.filter_cons, ih, List.filter_cons]
      cases hx : cpuEq c x with
      | false => simp [hx]
      | true =>
        have hxc : x.cpu_percent = c := by simpa [cpuEq] using hx
        have hyc : ¬ y.cpu_percent = c := by
          intro hy
          exact hles (show y.cpu_percent ≤ x.cpu_percent by rw [hy, hxc])
        have hyb : cpuEq c y = false := by simp [cpuEq, hyc]
        simp [hx, hyb]

/-- The stable sort leaves the relative order of entries sharing one cpu
key untouched. -/
theorem filter_insertionSort_cpu (c : ℚ) (l : List ProcEntry) :
    (List.insertionSort procGE l).filter (cpuEq c) = l.filter (cpuEq c) := by
  induction l with
  | nil => rfl
  | cons x xs ih =>
    simp only [List.insertionSort]
    rw [filter_orderedInsert_cpu, ih, List.filter_cons]

/-- C6: `get_top_processes n` returns `min n k` entries where `k` counts
the successfully read processes; the output is non-increasing in
`cpu_percent`; ties keep their original enumeration order (the entries
with any fixed cpu value form a prefix of those of the input, in input
order); failed reads are skipped silently (the pre-truncation list is a
permutation of the successfully read entries). -/
theorem get_top_processes_spec (n : ℕ) (procs : List (Option RawProc)) :
    (get_top_processes n procs).length
        = min n (procs.filterMap (fun o => o.map mkProcEntry)).length ∧
    List.Pairwise procGE (get_top_processes n procs) ∧
    (∀ c : ℚ, ∃ t, (get_top_processes n procs).filter (cpuEq c) ++ t
        = (procs.filterMap (fun o => o.map mkProcEntry)).filter (cpuEq c)) ∧
    (List.insertionSort procGE (procs.filterMap (fun o => o.map mkProcEntry))).Perm
        (procs.filterMap (fun o => o.map mkProcEntry)) := by
  refine ⟨?_, ?_, ?_, List.perm_insertionSort procGE _⟩
  · rw [get_top_processes, List.length_take,
      (List.perm_insertionSort procGE _).length_eq]
  · exact List.Pairwise.sublist (List.take_sublist n _)
      (List.sorted_insertionSort procGE _)
  · intro c
    refine ⟨((List.insertionSort procGE
        (procs.filterMap (fun o => o.map mkProcEntry))).drop n).filter (cpuEq c), ?_⟩
    rw [get_top_processes, ← List.filter_append, List.take_append_drop,
      filter_insertionSort_cpu]

/-! ### Reduction lemmas for `stats` -/

theorem isOk_exists {α : Type} {e : Except Unit α} (h : e.isOk = true) :
    ∃ v, e = Except.ok v := by
  cases e with
  | error u => simp [Except.isOk, Except.toBool] at h
  | ok v => exact ⟨v, rfl⟩

/-- When all seven unguarded reads succeed, `stats` returns the composed
payload and overwrites the stored sample with the fresh counters and
timestamp. -/
theorem stats_ok (inp : StatsInput) (st : RateState) (cpu : ℚ) (perCore : List ℚ)
    (freq : Option ℚ) (vm : MemInfo) (du : DiskUsage) (nc : NetCounters) (dc : DiskCounters)
    (h1 : inp.cpu_percent = Except.ok cpu) (h2 : inp.per_core = Except.ok perCore)
    (h3 : inp.cpu_freq = Except.ok freq) (h4 : inp.vm = Except.ok vm)
    (h5 : inp.disk_usage = Except.ok du) (h6 : inp.net_counters = Except.ok nc)
    (h7 : inp.disk_io = Except.ok dc) :
    stats inp st = (Except.ok (mkPayload inp st cpu perCore freq vm du nc dc),
      { net := some nc, disk := some dc, ts := some inp.now }) := by
  rw [stats, h1, h2, h3, h4, h5, h6, h7]

/-- When one of the seven unguarded reads raises, the request fails and
the shared state is returned unchanged. -/
theorem stats_error (inp : StatsInput) (st : RateState) (h : readsOk inp = false) :
    stats inp st = (Except.error (), st) := by
  rw [stats]
  cases c1 : inp.cpu_percent with
  | error u => rfl
  | ok v1 =>
  cases c2 : inp.per_core with
  | error u => rfl
  | ok v2 =>
  cases c3 : inp.cpu_freq with
  | error u => rfl
  | ok v3 =>
  cases c4 : inp.vm with
  | error u => rfl
  | ok v4 =>
  cases c5 : inp.disk_usage with
  | error u => rfl
  | ok v5 =>
  cases c6 : inp.net_counters with
  | error u => rfl
  | ok v6 =>
  cases c7 : inp.disk_io with
  | error u => rfl
  | ok v7 =>
  simp [readsOk, c1, c2, c3, c4, c5, c6, c7, Except.isOk, Except.toBool] at h

/-! ### Claim C3: serialization of concurrent snapshot compositions -/

/-- C3: in every realizable interleaving of concurrent handler calls
(every valid trace of the single `threading.Lock`), between one thread's
read of `_prev` and its subsequent overwrite — both inside the same
`with lock:` region, hence no release by that thread in between — every
event belongs to that thread.  No other caller can write (or read) the
shared rate state between the read and the write it is paired with, so
updates are totally ordered and no rate ever pairs one caller's current
counters with another caller's stored sample. -/
theorem lock_serializes_rate_updates (l1 m l2 : List LockEv) (t : ℕ)
    (hv : validTrace (l1 ++ LockEv.mk t LockAct.read :: (m ++ LockEv.mk t LockAct.write :: l2)) = true)
    (hnr : LockEv.mk t LockAct.release ∉ m) :
    ∀ e ∈ m, e.tid = t := by
  unfold validTrace at hv
  rw [runLock_append] at hv
  cases hL : runLock none l1 with
  | none => rw [hL] at hv; simp at hv
  | some L =>
    rw [hL] at hv
    simp only [Option.some_bind] at hv
    cases L with
    | none => simp [runLock, lockStep] at hv
    | some u =>
      by_cases hut : t = u
      · subst hut
        simp only [runLock, lockStep, if_pos, ite_true, reduceIte] at hv
        rw [runLock_append] at hv
        cases hM : runLock (some t) m with
        | none => rw [hM] at hv; simp at hv
        | some M => exact (runLock_held t m (by rw [hM]; rfl) hnr).1
      · simp [runLock, lockStep, hut] at hv

/-- Witness for `lock_serializes_rate_updates` on a concrete valid trace
of two threads. -/
theorem lock_serializes_rate_updates_witness :
    (LockEv.mk 0 LockAct.write).tid = 0 := by
  have h := lock_serializes_rate_updates [LockEv.mk 0 LockAct.acquire]
      [LockEv.mk 0 LockAct.write]
      [LockEv.mk 0 LockAct.release, LockEv.mk 1 LockAct.acquire, LockEv.mk 1 LockAct.read,
       LockEv.mk 1 LockAct.write, LockEv.mk 1 LockAct.release] 0 (by decide) (by decide)
  exact h (LockEv.mk 0 LockAct.write) (by decide)

/-! ### Claim C7: ordered GPU fallback -/

/-- C7: GPU resolution is an ordered fallback that never raises: when the
primary enumeration yields a first device with valid fields, the result
is that device's record and the external probe plays no role (the result
is the same whatever the probe would return); when the primary source
raises or yields zero devices, the result is exactly the probe fallback;
a probe output with fewer than 5 comma-separated fields is no data; and
when both paths fail the result is `none`. -/
theorem safe_gpu_info_fallback_order (primary : Except Unit (List (Option GpuRaw)))
    (smi smi2 : Except Unit SmiRes) :
    (∀ g rest, primary = Except.ok (some g :: rest) →
      safe_gpu_info primary smi = some (mkGpuInfo g) ∧
      safe_gpu_info primary smi = safe_gpu_info primary smi2) ∧
    ((primary = Except.error () ∨ primary = Except.ok []) →
      safe_gpu_info primary smi = gpuFallback smi) ∧
    (∀ p, smi = Except.ok p → (p.stdout.splitOn ",").length < 5 →
      gpuFallback smi = none) ∧
    ((primary = Except.error () ∨ primary = Except.ok []) → gpuFallback smi = none →
      safe_gpu_info primary smi = none) := by
  refine ⟨?_, ?_, ?_, ?_⟩
  · intro g rest hp
    subst hp
    exact ⟨rfl, rfl⟩
  · rintro (rfl | rfl) <;> rfl
  · intro p hp hlen
    subst hp
    by_cases hc : p.returncode = 0 ∧ p.stdout.trim ≠ ""
    · have hlen2 : ((p.stdout.splitOn ",").map String.trim).length < 5 := by
        rw [List.length_map]; exact hlen
      rcases hml : (p.stdout.splitOn ",").map String.trim with _ | ⟨a, _ | ⟨b, _ | ⟨c, _ | ⟨d, _ | ⟨e, tl⟩⟩⟩⟩⟩
      · simp [gpuFallback, hc, hml]
      · simp [gpuFallback, hc, hml]
      · simp [gpuFallback, hc, hml]
      · simp [gpuFallback, hc, hml]
      · simp [gpuFallback, hc, hml]
      · rw [hml] at hlen2
        simp at hlen2
        omega
    · simp [gpuFallback, hc]
  · rintro (rfl | rfl) hfb <;> exact hfb

/-- Witness for `safe_gpu_info_fallback_order`: a present first device
wins without consulting the probe; both paths failing yields `none`. -/
theorem safe_gpu_info_fallback_order_witness :
    safe_gpu_info (Except.ok [some ⟨"gpu0", 1/2, 100, 200, none⟩]) (Except.error ())
      = some (mkGpuInfo ⟨"gpu0", 1/2, 100, 200, none⟩) ∧
    safe_gpu_info (Except.error ()) (Except.error ()) = none := by
  constructor
  · exact ((safe_gpu_info_fallback_order (Except.ok [some ⟨"gpu0", 1/2, 100, 200, none⟩])
      (Except.error ()) (Except.error ())).1 ⟨"gpu0", 1/2, 100, 200, none⟩ [] rfl).1
  · exact (safe_gpu_info_fallback_order (Except.error ()) (Except.error ())
      (Except.error ())).2.2.2 (Or.inl rfl) rfl

/-! ### Claim C1: exact rate derivation -/

/-- C1 (amended): whenever a previous sample (net counters, disk
counters, timestamp) is stored, the stored timestamp is NONZERO (the
code treats a stored `0.0` as missing, by Python falsiness of
`prev_ts`), the unguarded reads succeed and `Δt = now - prev_ts` is
strictly positive, each of the four returned rates is exactly
`(current counter - previous counter) / Δt`, per counter field. -/
theorem stats_rate_exact (inp : StatsInput) (st : RateState) (cpu : ℚ) (perCore : List ℚ)
    (freq : Option ℚ) (vm : MemInfo) (du : DiskUsage) (nc : NetCounters) (dc : DiskCounters)
    (p : NetCounters) (pd : DiskCounters) (t : ℚ)
    (h1 : inp.cpu_percent = Except.ok cpu) (h2 : inp.per_core = Except.ok perCore)
    (h3 : inp.cpu_freq = Except.ok freq) (h4 : inp.vm = Except.ok vm)
    (h5 : inp.disk_usage = Except.ok du) (h6 : inp.net_counters = Except.ok nc)
    (h7 : inp.disk_io = Except.ok dc)
    (hnet : st.net = some p) (hdisk : st.disk = some pd) (hts : st.ts = some t)
    (ht0 : t ≠ 0) (hdt : 0 < inp.now - t) :
    ∃ pl, (stats inp st).1 = Except.ok pl ∧
      pl.upload_bps = some (((nc.bytes_sent : ℚ) - (p.bytes_sent : ℚ)) / (inp.now - t)) ∧
      pl.download_bps = some (((nc.bytes_recv : ℚ) - (p.bytes_recv : ℚ)) / (inp.now - t)) ∧
      pl.read_bps = some (((dc.read_bytes : ℚ) - (pd.read_bytes : ℚ)) / (inp.now - t)) ∧
      pl.write_bps = some (((dc.write_bytes : ℚ) - (pd.write_bytes : ℚ)) / (inp.now - t)) := by
  rw [stats_ok inp st cpu perCore freq vm du nc dc h1 h2 h3 h4 h5 h6 h7]
  refine ⟨_, rfl, ?_, ?_, ?_, ?_⟩ <;>
    simp [mkPayload, hnet, hdisk, hts, ht0, ne_of_gt hdt, hdt]

/-- Witness for `stats_rate_exact`: the spec's end-to-end example shifted
to a nonzero baseline timestamp — `Δt = 2`, upload 1000, download 250. -/
theorem stats_rate_exact_witness :
    ∃ pl, (stats inpW stW).1 = Except.ok pl ∧
      pl.upload_bps = some 1000 ∧ pl.download_bps = some 250 ∧
      pl.read_bps = some 200 ∧ pl.write_bps = some 250 := by
  obtain ⟨pl, hok, hu, hd, hr, hw⟩ := stats_rate_exact inpW stW 10 [10] (some 2400)
    ⟨4096, 2048, 2048, 50⟩ ⟨100, 50, 50, 50⟩ ⟨3000, 2500⟩ ⟨500, 600⟩
    ⟨1000, 2000⟩ ⟨100, 100⟩ 1 rfl rfl rfl rfl rfl rfl rfl rfl rfl rfl
    (by norm_num) (by norm_num [inpW])
  refine ⟨pl, hok, ?_, ?_, ?_, ?_⟩
  · rw [hu]; norm_num [inpW]
  · rw [hd]; norm_num [inpW]
  · rw [hr]; norm_num [inpW]
  · rw [hw]; norm_num [inpW]

/-- C1 counterexample: a stored sample exists (at timestamp 0) and
`Δt = 3 - 0` is strictly positive, yet every returned rate is `none`:
`delta_t = now - prev_ts if prev_ts else None` treats the stored float
`0.0` as missing (Python falsiness), so no rate is computed. -/
theorem stats_rate_missing_at_zero_ts :
    stZeroTs.net = some ⟨1000, 2000⟩ ∧ stZeroTs.disk = some ⟨100, 100⟩ ∧
    stZeroTs.ts = some 0 ∧ (0 : ℚ) < inpW.now - 0 ∧
    ∃ pl, (stats inpW stZeroTs).1 = Except.ok pl ∧
      pl.upload_bps = none ∧ pl.download_bps = none ∧
      pl.read_bps = none ∧ pl.write_bps = none := by
  refine ⟨rfl, rfl, rfl, by norm_num [inpW], _, rfl, rfl, rfl, rfl, rfl⟩

/-! ### Claim C2: absent rates and unconditional baseline overwrite -/

/-- C2: when no rate is computable — the first-ever call (empty stored
state) or a non-positive `Δt` — every returned rate field is `none`; and
on every successful call, whatever the stored state was, the previous
sample is replaced by the freshly read counters and timestamp. -/
theorem stats_rates_absent_and_baseline (inp : StatsInput) (st : RateState) (cpu : ℚ)
    (perCore : List ℚ) (freq : Option ℚ) (vm : MemInfo) (du : DiskUsage)
    (nc : NetCounters) (dc : DiskCounters)
    (h1 : inp.cpu_percent = Except.ok cpu) (h2 : inp.per_core = Except.ok perCore)
    (h3 : inp.cpu_freq = Except.ok freq) (h4 : inp.vm = Except.ok vm)
    (h5 : inp.disk_usage = Except.ok du) (h6 : inp.net_counters = Except.ok nc)
    (h7 : inp.disk_io = Except.ok dc) :
    (st = ⟨none, none, none⟩ →
      ∃ pl, (stats inp st).1 = Except.ok pl ∧ pl.upload_bps = none ∧
        pl.download_bps = none ∧ pl.read_bps = none ∧ pl.write_bps = none) ∧
    (∀ t : ℚ, st.ts = some t → inp.now - t ≤ 0 →
      ∃ pl, (stats inp st).1 = Except.ok pl ∧ pl.upload_bps = none ∧
        pl.download_bps = none ∧ pl.read_bps = none ∧ pl.write_bps = none) ∧
    (stats inp st).2 = { net := some nc, disk := some dc, ts := some inp.now } := by
  rw [stats_ok inp st cpu perCore freq vm du nc dc h1 h2 h3 h4 h5 h6 h7]
  refine ⟨?_, ?_, rfl⟩
  · rintro rfl
    exact ⟨_, rfl, by simp [mkPayload], by simp [mkPayload], by simp [mkPayload],
      by simp [mkPayload]⟩
  · intro t hts hdt
    refine ⟨_, rfl, ?_, ?_, ?_, ?_⟩ <;>
    · rcases eq_or_ne t 0 with h0 | h0
      · cases hn : st.net <;> cases hd : st.disk <;> simp [mkPayload, hts, h0, hn, hd]
      · have hnp : ¬ (0 < inp.now - t) := not_lt.mpr hdt
        cases hn : st.net <;> cases hd : st.disk <;> simp [mkPayload, hts, h0, hn, hd, hnp]

/-- Witness for `stats_rates_absent_and_baseline`: a first-ever call on
the uninitialized state returns no rates and installs the baseline. -/
theorem stats_rates_absent_and_baseline_witness :
    (∃ pl, (stats inpW ⟨none, none, none⟩).1 = Except.ok pl ∧ pl.upload_bps = none ∧
      pl.download_bps = none ∧ pl.read_bps = none ∧ pl.write_bps = none) ∧
    (stats inpW ⟨none, none, none⟩).2
      = { net := some ⟨3000, 2500⟩, disk := some ⟨500, 600⟩, ts := some 3 } := by
  have h := stats_rates_absent_and_baseline inpW ⟨none, none, none⟩ 10 [10] (some 2400)
    ⟨4096, 2048, 2048, 50⟩ ⟨100, 50, 50, 50⟩ ⟨3000, 2500⟩ ⟨500, 600⟩
    rfl rfl rfl rfl rfl rfl rfl
  exact ⟨h.1 rfl, h.2.2⟩

/-! ### Claim C4: evolution of the stored timestamp -/

/-- On any successful call the new stored state holds the freshly read
counters and the current clock value. -/
theorem stats_state_of_readsOk (inp : StatsInput) (st : RateState)
    (h : readsOk inp = true) :
    ∃ nc dc, (stats inp st).2 = { net := some nc, disk := some dc, ts := some inp.now } := by
  simp only [readsOk, Bool.and_eq_true] at h
  obtain ⟨⟨⟨⟨⟨⟨hc, hp⟩, hf⟩, hv⟩, hd⟩, hn⟩, hio⟩ := h
  obtain ⟨cpu, e1⟩ := isOk_exists hc
  obtain ⟨pc, e2⟩ := isOk_exists hp
  obtain ⟨fr, e3⟩ := isOk_exists hf
  obtain ⟨vmv, e4⟩ := isOk_exists hv
  obtain ⟨duv, e5⟩ := isOk_exists hd
  obtain ⟨nc, e6⟩ := isOk_exists hn
  obtain ⟨dc, e7⟩ := isOk_exists hio
  exact ⟨nc, dc, by rw [stats_ok inp st cpu pc fr vmv duv nc dc e1 e2 e3 e4 e5 e6 e7]⟩

/-- C4 (amended): the stored timestamps are non-decreasing across a
sequence of successful calls PROVIDED the observed clock values
themselves never decrease below the current stored timestamp; the code
installs `now` unconditionally, so the invariant holds exactly when the
clock is monotone (see the counterexample for a negative-Δt call). -/
theorem stored_ts_monotone (st : RateState) (t0 : ℚ) (inputs : List StatsInput)
    (hts : st.ts = some t0) (hok : ∀ i ∈ inputs, readsOk i = true)
    (hchain : List.Chain (fun a b : ℚ => a ≤ b) t0 (inputs.map (fun i => i.now))) :
    List.Chain (fun a b : ℚ => a ≤ b) t0
      ((runStats st inputs).filterMap (fun s => s.ts)) := by
  induction inputs generalizing st t0 with
  | nil => exact List.Chain.nil
  | cons i is ih =>
    have hoki : readsOk i = true := hok i (List.mem_cons_self i is)
    obtain ⟨nc, dc, hst2⟩ := stats_state_of_readsOk i st hoki
    rcases hchain with _ | ⟨hle, hch⟩
    simp only [runStats, List.map_cons, hst2, List.filterMap_cons]
    exact List.Chain.cons hle (ih _ i.now rfl
      (fun j hj => hok j (List.mem_cons_of_mem i hj)) hch)

/-- Witness for `stored_ts_monotone`: two successful calls at clocks 3
then 4 on a baseline stored at 1. -/
theorem stored_ts_monotone_witness :
    List.Chain (fun a b : ℚ => a ≤ b) 1
      ((runStats stW [inpW, inpW4]).filterMap (fun s => s.ts)) := by
  apply stored_ts_monotone stW 1 [inpW, inpW4] rfl
  · intro i hi
    rcases List.mem_cons.mp hi with rfl | hi
    · rfl
    rcases List.mem_cons.mp hi with rfl | hi
    · rfl
    · exact absurd hi (List.not_mem_nil i)
  · show List.Chain (fun a b : ℚ => a ≤ b) 1 [(3 : ℚ), 4]
    norm_num [List.chain_cons]

/-- C4 counterexample: with a stored timestamp 10, a successful call
whose observed clock is 5 (`Δt = -5 < 0`) still overwrites the stored
timestamp, which DECREASES from 10 to 5 — refuting the claim that the
stored timestamps never decrease even on negative-Δt calls. -/
theorem stored_ts_decreases :
    stTen.ts = some 10 ∧ inpPast.now - 10 < 0 ∧
    ((stats inpPast stTen).2).ts = some 5 ∧ (5 : ℚ) < 10 := by
  refine ⟨rfl, by norm_num [inpPast, inpW], rfl, by norm_num⟩

/-! ### Claim C8: per-NIC counters always present -/

/-- C8: the snapshot always carries a per-NIC mapping: when enumeration
raises it is the empty mapping (the payload field is still present); when
it succeeds it has exactly one entry per interface name carrying the
sent/received byte and packet counters. -/
theorem stats_interfaces_total (inp : StatsInput) (st : RateState) (cpu : ℚ)
    (perCore : List ℚ) (freq : Option ℚ) (vm : MemInfo) (du : DiskUsage)
    (nc : NetCounters) (dc : DiskCounters)
    (h1 : inp.cpu_percent = Except.ok cpu) (h2 : inp.per_core = Except.ok perCore)
    (h3 : inp.cpu_freq = Except.ok freq) (h4 : inp.vm = Except.ok vm)
    (h5 : inp.disk_usage = Except.ok du) (h6 : inp.net_counters = Except.ok nc)
    (h7 : inp.disk_io = Except.ok dc) :
    ∃ pl, (stats inp st).1 = Except.ok pl ∧
      (inp.pernic = Except.error () → pl.interfaces = []) ∧
      (∀ l, inp.pernic = Except.ok l →
        pl.interfaces = l.map (fun kv => (kv.1, mkNicEntry kv.2)) ∧
        pl.interfaces.map Prod.fst = l.map Prod.fst) := by
  rw [stats_ok inp st cpu perCore freq vm du nc dc h1 h2 h3 h4 h5 h6 h7]
  refine ⟨_, rfl, ?_, ?_⟩
  · intro h
    simp [mkPayload, h]
  · intro l h
    constructor
    · simp [mkPayload, h]
    · simp [mkPayload, h]

/-- Witness for `stats_interfaces_total`: one concrete interface on
success, the empty mapping when enumeration raises. -/
theorem stats_interfaces_total_witness :
    (∃ pl, (stats inpW stW).1 = Except.ok pl ∧
      pl.interfaces = [("eth0", ⟨1, 2, 3, 4⟩)]) ∧
    (∃ pl, (stats inpNicErr stW).1 = Except.ok pl ∧ pl.interfaces = []) := by
  constructor
  · obtain ⟨pl, hok, _, hs⟩ := stats_interfaces_total inpW stW 10 [10] (some 2400)
      ⟨4096, 2048, 2048, 50⟩ ⟨100, 50, 50, 50⟩ ⟨3000, 2500⟩ ⟨500, 600⟩
      rfl rfl rfl rfl rfl rfl rfl
    obtain ⟨hmap, _⟩ := hs [("eth0", ⟨1, 2, 3, 4, 0, 0⟩)] rfl
    exact ⟨pl, hok, by rw [hmap]; rfl⟩
  · obtain ⟨pl, hok, he, _⟩ := stats_interfaces_total inpNicErr stW 10 [10] (some 2400)
      ⟨4096, 2048, 2048, 50⟩ ⟨100, 50, 50, 50⟩ ⟨3000, 2500⟩ ⟨500, 600⟩
      rfl rfl rfl rfl rfl rfl rfl
    exact ⟨pl, hok, he rfl⟩

/-! ### Claim C9: atomicity on request-level error -/

/-- C9: when one of the unguarded core reads (CPU, per-core, frequency,
memory, disk usage, net counters, disk counters) raises, the request
fails AND the shared rate state is left exactly as it was: every read
that can abort the request happens before the baseline overwrite. -/
theorem stats_error_preserves_state (inp : StatsInput) (st : RateState)
    (h : readsOk inp = false) :
    (stats inp st).1 = Except.error () ∧ (stats inp st).2 = st := by
  rw [stats_error inp st h]
  exact ⟨rfl, rfl⟩

/-- Witness for `stats_error_preserves_state`: a raising
`psutil.virtual_memory()` aborts the request and keeps the state. -/
theorem stats_error_preserves_state_witness :
    (stats inpBad stW).1 = Except.error () ∧ (stats inpBad stW).2 = stW :=
  stats_error_preserves_state inpBad stW rfl
